import Mathlib

/-!
Shallow embedding of the SpriteMapMaterial tile-map engine
(materialsLibrary/src/custom/spriteMap/spriteMapMaterial.ts) and proofs
about its data layout, mutation operations and per-pixel compositing
algorithm.  GPU lookup textures are modelled as pure index maps (nearest
sampling of integral texel coordinates is exact table lookup), shader
floats over the exactly representable inputs as rationals, JavaScript
plain arrays as total index maps, and JavaScript typed arrays as lists of
rationals with the typed-array out-of-range write semantics (the write is
silently ignored).
-/

namespace SpriteMap

/-- One cell of the animation table: the (nextSpriteIndex,
cumulativeHoldFraction, playbackSpeed) triple held in the .x/.y/.z
channels the shader reads from the animationBuffer texture. -/
structure AnimCell where
  next : ℕ
  hold : ℚ
  speed : ℚ
deriving DecidableEq

/-- The shader's animation scan loop (Fragment_Custom_Diffuse, lines
198-204): for each counter value f below MAX_ANIMATION_FRAMES, first test
the currently held cell (break with its next-sprite index when its
hold-fraction exceeds mt), otherwise re-fetch the cell of the original
frameID at slot f and continue.  fuel is the number of remaining
iterations (initially MAX_ANIMATION_FRAMES), f the loop counter. -/
def animLoop (an : ℕ → ℕ → AnimCell) (frameID : ℕ) (mt : ℚ) :
    ℕ → ℕ → AnimCell → ℕ
  | 0, _, _ => frameID
  | fuel + 1, f, ad =>
    if ad.hold > mt then ad.next
    else animLoop an frameID mt fuel (f + 1) (an frameID f)

/-- Animation resolution for one layer's raw frameID
(Fragment_Custom_Diffuse, lines 195-205): fetch slot 0 of the sprite's
animation row; when its hold-fraction is positive, run the scan loop with
mt = mod(time * playbackSpeed, 1.0); otherwise keep the static frame. -/
def resolveFrame (an : ℕ → ℕ → AnimCell) (maxFrames : ℕ) (time : ℚ)
    (frameID : ℕ) : ℕ :=
  let ad := an frameID 0
  if ad.hold > 0 then
    animLoop an frameID (Int.fract (time * ad.speed)) maxFrames 0 ad
  else frameID

/-- Animation table in which sprite A's row holds the single transition
cell (B, 1/2, 1) in slot 0 and every other cell is zero. -/
def singleTransition (A B : ℕ) : ℕ → ℕ → AnimCell :=
  fun s f => if s = A ∧ f = 0 then ⟨B, 1/2, 1⟩ else ⟨0, 0, 0⟩

lemma animLoop_of_all_le (an : ℕ → ℕ → AnimCell) (A : ℕ) (mt : ℚ)
    (h : ∀ f, (an A f).hold ≤ mt) :
    ∀ fuel f ad, ad.hold ≤ mt → animLoop an A mt fuel f ad = A := by
  intro fuel
  induction fuel with
  | zero => intro f ad _; rfl
  | succ n ih =>
    intro f ad had
    rw [animLoop, if_neg (not_lt.mpr had)]
    exact ih (f + 1) _ (h f)

/-- C1: with a single transition cell (B, 1/2, 1) in sprite A's
animation row, the scan resolves the displayed frame to B whenever
time mod 1 lies in [0, 1/2) and back to the sprite's own base frame A
whenever time mod 1 lies in [1/2, 1); equality of mt with the
hold-fraction counts as not yet exceeded, so the boundary point 1/2
resolves to the base frame. -/
theorem spriteMap_animation_single_transition (A B : ℕ) (mf : ℕ)
    (time : ℚ) (hmf : 1 ≤ mf) :
    (Int.fract time < 1/2 →
      resolveFrame (singleTransition A B) mf time A = B) ∧
    (1/2 ≤ Int.fract time →
      resolveFrame (singleTransition A B) mf time A = A) := by
  have hcell : singleTransition A B A 0 = ⟨B, 1/2, 1⟩ := by
    simp [singleTransition]
  constructor
  · intro hlt
    obtain ⟨k, rfl⟩ : ∃ k, mf = k + 1 := ⟨mf - 1, by omega⟩
    rw [resolveFrame]
    rw [hcell]
    rw [if_pos (by norm_num)]
    rw [animLoop]
    rw [if_pos (by simpa using hlt)]
  · intro hge
    rw [resolveFrame]
    rw [hcell]
    rw [if_pos (by norm_num)]
    refine animLoop_of_all_le _ _ _ ?_ mf 0 _ ?_
    · intro f
      by_cases hf : f = 0
      · subst hf
        rw [hcell]
        simp only [mul_one] at hge ⊢
        exact hge
      · simp only [singleTransition, hf, and_false, if_neg, not_false_iff]
        calc (AnimCell.mk 0 0 0).hold = 0 := rfl
          _ ≤ Int.fract (time * 1) := by rw [mul_one]; exact Int.fract_nonneg time
    · simpa using hge

/-- Witness for C1 at maxAnimationFrames = 1, A = 0, B = 1, times 1/4
(first half of the loop) and 3/4 (second half). -/
theorem spriteMap_animation_single_transition_witness :
    resolveFrame (singleTransition 0 1) 1 (1/4) 0 = 1 ∧
    resolveFrame (singleTransition 0 1) 1 (3/4) 0 = 0 := by
  have h14 : Int.fract ((1 : ℚ)/4) = 1/4 :=
    Int.fract_eq_self.mpr ⟨by norm_num, by norm_num⟩
  have h34 : Int.fract ((3 : ℚ)/4) = 3/4 :=
    Int.fract_eq_self.mpr ⟨by norm_num, by norm_num⟩
  exact ⟨(spriteMap_animation_single_transition 0 1 1 (1/4) (by norm_num)).1
      (by rw [h14]; norm_num),
    (spriteMap_animation_single_transition 0 1 1 (3/4) (by norm_num)).2
      (by rw [h34]; norm_num)⟩

/-- An RGBA sample, the vec4 values the shader works with. -/
structure RGBA where
  r : ℚ
  g : ℚ
  b : ℚ
  a : ℚ
deriving DecidableEq

/-- GLSL mix(x, y, t) = x * (1 - t) + y * t, as used by the blend. -/
def mixQ (x y t : ℚ) : ℚ := x * (1 - t) + y * t

/-- Modelled from the spec: lerp(C0, C1, a1) = C0 + (C1 - C0) * a1, the
straight alpha-over interpolation the spec states for the layer blend. -/
def lerp (x y t : ℚ) : ℚ := x + (y - x) * t

/-- The i > 0 blend of Fragment_Custom_Diffuse (lines 227-230):
alpha = min(sColor.a + nc.a, 1.0), rgb = mix(sColor.rgb, nc.rgb, nc.a). -/
def blendStep (sColor nc : RGBA) : RGBA :=
  ⟨mixQ sColor.r nc.r nc.a, mixQ sColor.g nc.g nc.a,
    mixQ sColor.b nc.b nc.a, min (sColor.a + nc.a) 1⟩

/-- One sprite's column of the frame table as the shader's getFrameData
mat4 reads it: row 0 = frame rect (x, y, w, h), row 2 = (sourceSize.w,
sourceSize.h, rotated flag, trimmed flag); row 1 is fetched but only row
2's .xy enter the (unused) ratio, so only the channels the sampler uses
are carried. -/
structure FrameData where
  fx : ℚ
  fy : ℚ
  fw : ℚ
  fh : ℚ
  ssw : ℚ
  ssh : ℚ
  rot : ℚ
  trm : ℚ
deriving DecidableEq

/-- The per-layer trace of the compositing loop: the tileUV value in
force when the layer samples (after its rotation test) and the diffuse
sample fetched with it. -/
structure LayerTraceEntry where
  uvUsed : ℚ × ℚ
  sample : RGBA
deriving DecidableEq

/-- The shader's per-pixel layer loop (Fragment_Custom_Diffuse, lines
190-241), one recursion step per loop iteration over the list of raw
frame IDs the tile buffers deliver for this pixel.  tileUV is threaded
through the iterations exactly as in the source, where it is declared
outside the loop and the rotation branch overwrites it in place
(tileUV.xy = tileUV.yx); i is the loop counter (i == 0 seeds the
composite, i > 0 blends); the result is the final sColor together with
the per-layer trace.  frameSize = frameData[0].wz / spriteMapSize and
offset = frameData[0].xy / spriteMapSize as in lines 209-210. -/
def compLoop (diffuse : ℚ × ℚ → RGBA) (ft : ℕ → FrameData)
    (an : ℕ → ℕ → AnimCell) (mf : ℕ) (time : ℚ) (msW msH : ℚ) :
    List ℕ → ℕ → ℚ × ℚ → RGBA → RGBA × List LayerTraceEntry
  | [], _, _, sColor => (sColor, [])
  | fid :: rest, i, tileUV, sColor =>
    let rid := resolveFrame an mf time fid
    let fd := ft rid
    let tileUV2 := if fd.rot = 1 then (tileUV.2, tileUV.1) else tileUV
    let frameSize : ℚ × ℚ := (fd.fh / msW, fd.fw / msH)
    let offset : ℚ × ℚ := (fd.fx / msW, fd.fy / msH)
    let nc := diffuse
      (tileUV2.1 * frameSize.1 + offset.1, tileUV2.2 * frameSize.2 + offset.2)
    let sColor2 := if i = 0 then nc else blendStep sColor nc
    let r := compLoop diffuse ft an mf time msW msH rest (i + 1) tileUV2 sColor2
    (r.1, ⟨tileUV2, nc⟩ :: r.2)

/-- The loop as entered by the shader: counter at 0, accumulator at the
declared initial value vec4(0.). -/
def pixelOut (diffuse : ℚ × ℚ → RGBA) (ft : ℕ → FrameData)
    (an : ℕ → ℕ → AnimCell) (mf : ℕ) (time : ℚ) (msW msH : ℚ)
    (fids : List ℕ) (tileUV : ℚ × ℚ) : RGBA × List LayerTraceEntry :=
  compLoop diffuse ft an mf time msW msH fids 0 tileUV ⟨0, 0, 0, 0⟩

/-- The per-layer tile coordinates actually used for sampling. -/
def usedUVs (diffuse : ℚ × ℚ → RGBA) (ft : ℕ → FrameData)
    (an : ℕ → ℕ → AnimCell) (mf : ℕ) (time : ℚ) (msW msH : ℚ)
    (fids : List ℕ) (tileUV : ℚ × ℚ) : List (ℚ × ℚ) :=
  (pixelOut diffuse ft an mf time msW msH fids tileUV).2.map
    (fun e => e.uvUsed)

/-- The diffuse sample the loop fetched for layer t at this pixel. -/
def layerSample (diffuse : ℚ × ℚ → RGBA) (ft : ℕ → FrameData)
    (an : ℕ → ℕ → AnimCell) (mf : ℕ) (time : ℚ) (msW msH : ℚ)
    (fids : List ℕ) (tileUV : ℚ × ℚ) (t : ℕ) : RGBA :=
  (((pixelOut diffuse ft an mf time msW msH fids tileUV).2).map
    (fun e => e.sample)).getD t ⟨0, 0, 0, 0⟩

/-- C2: layer 0's sample seeds the running composite (the initial
accumulator is irrelevant whenever at least one layer runs), every layer
i > 0 blends by color = lerp(old, new, new.a) and
alpha = min(oldAlpha + newAlpha, 1), and a two-layer composite whose
layer-0 sample is opaque yields color = lerp(C0, C1, a1) with alpha 1. -/
theorem spriteMap_layer_blend (diffuse : ℚ × ℚ → RGBA) (ft : ℕ → FrameData)
    (an : ℕ → ℕ → AnimCell) (mf : ℕ) (time : ℚ) (msW msH : ℚ)
    (f0 f1 : ℕ) (uv : ℚ × ℚ)
    (hop : (layerSample diffuse ft an mf time msW msH [f0, f1] uv 0).a = 1)
    (ha1 : 0 ≤ (layerSample diffuse ft an mf time msW msH [f0, f1] uv 1).a) :
    (pixelOut diffuse ft an mf time msW msH [f0, f1] uv).1 =
      ⟨lerp (layerSample diffuse ft an mf time msW msH [f0, f1] uv 0).r
          (layerSample diffuse ft an mf time msW msH [f0, f1] uv 1).r
          (layerSample diffuse ft an mf time msW msH [f0, f1] uv 1).a,
        lerp (layerSample diffuse ft an mf time msW msH [f0, f1] uv 0).g
          (layerSample diffuse ft an mf time msW msH [f0, f1] uv 1).g
          (layerSample diffuse ft an mf time msW msH [f0, f1] uv 1).a,
        lerp (layerSample diffuse ft an mf time msW msH [f0, f1] uv 0).b
          (layerSample diffuse ft an mf time msW msH [f0, f1] uv 1).b
          (layerSample diffuse ft an mf time msW msH [f0, f1] uv 1).a, 1⟩ ∧
    (∀ x0 y0 z0 a0 x1 y1 z1 a1, blendStep ⟨x0, y0, z0, a0⟩ ⟨x1, y1, z1, a1⟩ =
      ⟨lerp x0 x1 a1, lerp y0 y1 a1, lerp z0 z1 a1, min (a0 + a1) 1⟩) ∧
    (∀ fid rest uv2 c c',
      compLoop diffuse ft an mf time msW msH (fid :: rest) 0 uv2 c =
      compLoop diffuse ft an mf time msW msH (fid :: rest) 0 uv2 c') := by
  have hmix : ∀ x y t : ℚ, mixQ x y t = lerp x y t := by
    intro x y t; simp only [mixQ, lerp]; ring
  refine ⟨?_, ?_, ?_⟩
  · simp [layerSample, pixelOut, compLoop, blendStep, hmix, RGBA.mk.injEq]
      at hop ha1 ⊢
    rw [hop]
    exact le_add_of_nonneg_right ha1
  · intro x0 y0 z0 a0 x1 y1 z1 a1
    simp only [blendStep, hmix]
  · intro fid rest uv2 c c'
    simp only [compLoop, reduceIte]

/-- All-white opaque diffuse source, a concrete sampling fixture. -/
def whiteTex : ℚ × ℚ → RGBA := fun _ => ⟨1, 0, 0, 1⟩

/-- Frame table fixture whose sprites are all unrotated and all zero. -/
def zeroFrameTable : ℕ → FrameData := fun _ => ⟨0, 0, 0, 0, 0, 0, 0, 0⟩

/-- Animation table fixture with no animated sprite. -/
def zeroAnimTable : ℕ → ℕ → AnimCell := fun _ _ => ⟨0, 0, 0⟩

/-- Witness for C2: all layers sample the opaque white fixture, so the
two-layer composite is the white sample itself. -/
theorem spriteMap_layer_blend_witness :
    (pixelOut whiteTex zeroFrameTable zeroAnimTable 1 0 1 1 [0, 0] (0, 0)).1
      = ⟨1, 0, 0, 1⟩ := by
  have h := (spriteMap_layer_blend whiteTex zeroFrameTable zeroAnimTable 1 0 1 1
      0 0 (0, 0) (by decide) (by decide)).1
  rw [h]
  norm_num [layerSample, pixelOut, compLoop, whiteTex, zeroFrameTable,
    zeroAnimTable, resolveFrame, lerp]

/-- The rotation flags of the resolved frames of the successive layers. -/
def layerRotFlags (ft : ℕ → FrameData) (an : ℕ → ℕ → AnimCell) (mf : ℕ)
    (time : ℚ) (fids : List ℕ) : List Bool :=
  fids.map (fun fid => decide ((ft (resolveFrame an mf time fid)).rot = 1))

lemma foldl_xor_eq (l : List Bool) :
    ∀ b, l.foldl Bool.xor b = Bool.xor b (l.foldl Bool.xor false) := by
  induction l with
  | nil => intro b; cases b <;> rfl
  | cons x xs ih =>
    intro b
    simp only [List.foldl_cons]
    rw [ih (Bool.xor b x), ih (Bool.xor false x)]
    cases b <;> cases x <;> simp

/-- The sequence of tileUV values produced by the rotation branch over
the layer iterations, uv threaded exactly as the loop threads it. -/
def uvTrace (ft : ℕ → FrameData) (an : ℕ → ℕ → AnimCell) (mf : ℕ)
    (time : ℚ) : List ℕ → ℚ × ℚ → List (ℚ × ℚ)
  | [], _ => []
  | fid :: rest, uv =>
    let uv2 := if (ft (resolveFrame an mf time fid)).rot = 1
      then (uv.2, uv.1) else uv
    uv2 :: uvTrace ft an mf time rest uv2

lemma usedUVs_eq_uvTrace (diffuse : ℚ × ℚ → RGBA) (ft : ℕ → FrameData)
    (an : ℕ → ℕ → AnimCell) (mf : ℕ) (time : ℚ) (msW msH : ℚ) :
    ∀ (fids : List ℕ) (i0 : ℕ) (uv : ℚ × ℚ) (c : RGBA),
      ((compLoop diffuse ft an mf time msW msH fids i0 uv c).2.map
        (fun e => e.uvUsed)) = uvTrace ft an mf time fids uv := by
  intro fids
  induction fids with
  | nil => intro i0 uv c; simp [compLoop, uvTrace]
  | cons fid rest ih =>
    intro i0 uv c
    simp only [compLoop, List.map_cons, uvTrace]
    rw [ih]

lemma uvTrace_get (ft : ℕ → FrameData) (an : ℕ → ℕ → AnimCell) (mf : ℕ)
    (time : ℚ) :
    ∀ (fids : List ℕ) (uv : ℚ × ℚ) (t : ℕ), t < fids.length →
      (uvTrace ft an mf time fids uv).get? t =
      some (if ((layerRotFlags ft an mf time fids).take (t + 1)).foldl
          Bool.xor false then (uv.2, uv.1) else uv) := by
  intro fids
  induction fids with
  | nil => intro uv t ht; simp at ht
  | cons fid rest ih =>
    intro uv t ht
    match t with
    | 0 =>
      by_cases hrot : (ft (resolveFrame an mf time fid)).rot = 1 <;>
        simp [uvTrace, layerRotFlags, hrot]
    | Nat.succ t =>
      have ht2 : t < rest.length := by simpa using ht
      simp only [uvTrace, List.get?_cons_succ]
      rw [ih _ t ht2]
      simp only [layerRotFlags, List.map_cons, Nat.succ_eq_add_one,
        List.take_succ_cons, List.foldl_cons, Bool.false_xor]
      have hfx := foldl_xor_eq ((rest.map (fun f2 =>
          decide ((ft (resolveFrame an mf time f2)).rot = 1))).take (t + 1))
        (decide ((ft (resolveFrame an mf time fid)).rot = 1))
      simp only [hfx]
      by_cases hrot : (ft (resolveFrame an mf time fid)).rot = 1 <;>
        by_cases hpar : ((rest.map (fun f2 =>
            decide ((ft (resolveFrame an mf time f2)).rot = 1))).take
            (t + 1)).foldl Bool.xor false = true <;>
        simp [hrot, hpar]

/-- C4 amended: the rotation swap mutates the shared per-pixel tile
coordinate, so the coordinate a layer samples with is the base fractional
coordinate with its components swapped exactly when an odd number of the
resolved frames of layers 0..t carry the rotated flag; a non-rotated
layer preceded by an odd number of rotated layers therefore samples with
swapped coordinates, and two rotated layers cancel each other. -/
theorem spriteMap_rotation_parity (diffuse : ℚ × ℚ → RGBA)
    (ft : ℕ → FrameData) (an : ℕ → ℕ → AnimCell) (mf : ℕ) (time : ℚ)
    (msW msH : ℚ) (fids : List ℕ) (uv : ℚ × ℚ) (t : ℕ)
    (ht : t < fids.length) :
    (usedUVs diffuse ft an mf time msW msH fids uv).get? t =
      some (if ((layerRotFlags ft an mf time fids).take (t + 1)).foldl
          Bool.xor false then (uv.2, uv.1) else uv) := by
  rw [usedUVs, pixelOut,
    usedUVs_eq_uvTrace diffuse ft an mf time msW msH fids 0 uv ⟨0, 0, 0, 0⟩]
  exact uvTrace_get ft an mf time fids uv t ht

/-- Frame table fixture: sprite 0 is rotated, every other sprite is not. -/
def rotFixture : ℕ → FrameData := fun n =>
  if n = 0 then ⟨0, 0, 0, 0, 0, 0, 1, 0⟩ else ⟨0, 0, 0, 0, 0, 0, 0, 0⟩

/-- C4 counterexample: with layer 0 showing the rotated sprite 0 and
layer 1 the unrotated sprite 1, layer 1 samples at the swapped
coordinate (1/2, 1/4), not at the unswapped tile fraction (1/4, 1/2):
the swap is not applied per layer independently. -/
theorem spriteMap_rotation_not_independent :
    (rotFixture (resolveFrame zeroAnimTable 1 0 1)).rot ≠ 1 ∧
    (usedUVs whiteTex rotFixture zeroAnimTable 1 0 1 1 [0, 1]
      (1/4, 1/2)).get? 1 = some (1/2, 1/4) ∧
    ((1/2 : ℚ), (1/4 : ℚ)) ≠ ((1/4 : ℚ), (1/2 : ℚ)) := by
  refine ⟨by norm_num [rotFixture, resolveFrame, zeroAnimTable], ?_, by norm_num⟩
  norm_num [usedUVs, pixelOut, compLoop, rotFixture, zeroAnimTable,
    resolveFrame, whiteTex]

/-- Witness for the C4 parity theorem at layer 0 of the same fixture:
the rotated layer 0 itself samples at the swapped coordinate. -/
theorem spriteMap_rotation_parity_witness :
    (usedUVs whiteTex rotFixture zeroAnimTable 1 0 1 1 [0, 1]
      (1/4, 1/2)).get? 0 = some ((1/2 : ℚ), (1/4 : ℚ)) := by
  have h := spriteMap_rotation_parity whiteTex rotFixture zeroAnimTable 1 0 1 1
    [0, 1] (1/4, 1/2) 0 (by norm_num)
  rw [h]
  norm_num [layerRotFlags, rotFixture, zeroAnimTable, resolveFrame]

/-- One atlas entry as consumed by _buildFrameBuffer: the frame rect,
spriteSourceSize, sourceSize and the rotated/trimmed flags of an
ISpriteJSONSprite record. -/
structure SpriteFrame where
  fx : ℚ
  fy : ℚ
  fw : ℚ
  fh : ℚ
  sssx : ℚ
  sssy : ℚ
  sssw : ℚ
  sssh : ℚ
  ssw : ℚ
  ssh : ℚ
  rotated : Bool
  trimmed : Bool
deriving DecidableEq

/-- Assignment to one slot of the JavaScript data array (a plain JS
array written by index), modelled as a total index map. -/
def upd (d : ℕ → ℚ) (k : ℕ) (v : ℚ) : ℕ → ℚ := fun j => if j = k then v else d j

/-- The second pass of _buildFrameBuffer for sprite i (lines 294-307),
in source assignment order: row 0 gets the frame rect, row 1 channels
0, 1, 3 get spriteSourceSize.x, spriteSourceSize.y and
spriteSourceSize.h (line 302 stores sss.h, the trimmed height),
row 2 gets sourceSize.w, sourceSize.h and the rotated/trimmed flags.
The row stride of the flat array is spriteCount * 4 = 4 * n. -/
def writeSprite (n i : ℕ) (s : SpriteFrame) (d : ℕ → ℚ) : ℕ → ℚ :=
  upd (upd (upd (upd (upd (upd (upd (upd (upd (upd (upd d
    (i * 4) s.fx)
    (i * 4 + 1) s.fy)
    (i * 4 + 2) s.fw)
    (i * 4 + 3) s.fh)
    (i * 4 + 4 * n) s.sssx)
    (i * 4 + 1 + 4 * n) s.sssy)
    (i * 4 + 3 + 4 * n) s.sssh)
    (i * 4 + 8 * n) s.ssw)
    (i * 4 + 1 + 8 * n) s.ssh)
    (i * 4 + 2 + 8 * n) (if s.rotated then 1 else 0))
    (i * 4 + 3 + 8 * n) (if s.trimmed then 1 else 0)

/-- The second pass over all sprites, i counting up from 0. -/
def writeAll (n : ℕ) : List SpriteFrame → ℕ → (ℕ → ℚ) → ℕ → ℚ
  | [], _, d => d
  | s :: rest, i, d => writeAll n rest (i + 1) (writeSprite n i s d)

/-- _buildFrameBuffer (lines 278-324): the first pass pushes 16 zeros
per sprite (the zero map over the 16 * spriteCount slots), the second
pass writes each sprite's fields. -/
def buildFrameBuffer (sprites : List SpriteFrame) : ℕ → ℚ :=
  writeAll sprites.length sprites 0 (fun _ => 0)

/-- The frame table texture as uploaded: the flat data plus the
width = spriteCount and height = 4 passed to CreateRGBATexture. -/
structure FrameTableTex where
  data : ℕ → ℚ
  width : ℕ
  height : ℕ

/-- The full result of _buildFrameBuffer including the texture extents
(lines 312-321). -/
def buildFrameBufferTex (sprites : List SpriteFrame) : FrameTableTex :=
  ⟨buildFrameBuffer sprites, sprites.length, 4⟩

/-- The flat indices the second pass writes for sprite i. -/
def writeSet (n i : ℕ) : List ℕ :=
  [i * 4, i * 4 + 1, i * 4 + 2, i * 4 + 3,
   i * 4 + 4 * n, i * 4 + 1 + 4 * n, i * 4 + 3 + 4 * n,
   i * 4 + 8 * n, i * 4 + 1 + 8 * n, i * 4 + 2 + 8 * n, i * 4 + 3 + 8 * n]

lemma writeSprite_not_mem (n i : ℕ) (s : SpriteFrame) (d : ℕ → ℚ) (k : ℕ)
    (h : k ∉ writeSet n i) : writeSprite n i s d k = d k := by
  simp only [writeSet, List.mem_cons, List.not_mem_nil, or_false, not_or] at h
  obtain ⟨h1, h2, h3, h4, h5, h6, h7, h8, h9, h10, h11⟩ := h
  simp only [writeSprite, upd, if_neg h1, if_neg h2, if_neg h3, if_neg h4,
    if_neg h5, if_neg h6, if_neg h7, if_neg h8, if_neg h9, if_neg h10,
    if_neg h11]

/-- The write chain applied at one slot, unfolded to its literal
if-cascade (latest assignment checked first); definitional. -/
lemma writeSprite_apply (n i : ℕ) (s : SpriteFrame) (d : ℕ → ℚ) (k : ℕ) :
    writeSprite n i s d k =
      if k = i * 4 + 3 + 8 * n then (if s.trimmed then 1 else 0)
      else if k = i * 4 + 2 + 8 * n then (if s.rotated then 1 else 0)
      else if k = i * 4 + 1 + 8 * n then s.ssh
      else if k = i * 4 + 8 * n then s.ssw
      else if k = i * 4 + 3 + 4 * n then s.sssh
      else if k = i * 4 + 1 + 4 * n then s.sssy
      else if k = i * 4 + 4 * n then s.sssx
      else if k = i * 4 + 3 then s.fh
      else if k = i * 4 + 2 then s.fw
      else if k = i * 4 + 1 then s.fy
      else if k = i * 4 then s.fx
      else d k := rfl

lemma writeSet_disjoint (n i j k : ℕ) (hi : i < n) (hj : j < n) (hij : i ≠ j)
    (hk : k ∈ writeSet n j) : k ∉ writeSet n i := by
  simp only [writeSet, List.mem_cons, List.not_mem_nil, or_false] at hk ⊢
  omega

lemma writeAll_not_mem (n : ℕ) :
    ∀ (rest : List SpriteFrame) (i0 : ℕ) (d : ℕ → ℚ) (k : ℕ),
      (∀ j, i0 ≤ j → j < i0 + rest.length → k ∉ writeSet n j) →
      writeAll n rest i0 d k = d k := by
  intro rest
  induction rest with
  | nil => intro i0 d k _; rfl
  | cons s0 rest ih =>
    intro i0 d k h
    rw [writeAll]
    rw [ih (i0 + 1) _ k (fun j hj1 hj2 => h j (by omega) (by simp; omega))]
    exact writeSprite_not_mem n i0 s0 d k
      (h i0 (le_refl i0) (by simp))

lemma writeAll_apply_target (n : ℕ) :
    ∀ (rest : List SpriteFrame) (i0 : ℕ) (d : ℕ → ℚ) (t : ℕ),
      i0 ≤ t → t < n → i0 + rest.length ≤ n →
      ∀ k, k ∈ writeSet n t →
      ∀ s, rest.get? (t - i0) = some s →
      ∃ d2, writeAll n rest i0 d k = writeSprite n t s d2 k := by
  intro rest
  induction rest with
  | nil => intro i0 d t h1 _ _ k _ s hs; simp at hs
  | cons s0 rest ih =>
    intro i0 d t h1 htn hn k hk s hs
    have hlen : (s0 :: rest).length = rest.length + 1 := by simp
    rw [hlen] at hn
    by_cases hti : t = i0
    · subst hti
      have hs0 : s0 = s := by
        rw [Nat.sub_self] at hs
        simpa using hs
      subst hs0
      rw [writeAll]
      refine ⟨d, ?_⟩
      exact writeAll_not_mem n rest (t + 1) _ k
        (fun j hj1 hj2 => writeSet_disjoint n j t k
          (by omega) (by omega) (by omega) hk)
    · have hgt : i0 + 1 ≤ t := by omega
      obtain ⟨m, hm⟩ : ∃ m, t - i0 = m + 1 := ⟨t - i0 - 1, by omega⟩
      rw [hm] at hs
      simp only [List.get?_cons_succ] at hs
      have hm2 : t - (i0 + 1) = m := by omega
      rw [writeAll]
      exact ih (i0 + 1) (writeSprite n i0 s0 d) t hgt htn (by omega) k hk s
        (by rw [hm2]; exact hs)

lemma writeSprite_eval (n t : ℕ) (s : SpriteFrame) (ht : t < n) :
    ∀ d : ℕ → ℚ,
    writeSprite n t s d (t * 4) = s.fx ∧
    writeSprite n t s d (t * 4 + 1) = s.fy ∧
    writeSprite n t s d (t * 4 + 2) = s.fw ∧
    writeSprite n t s d (t * 4 + 3) = s.fh ∧
    writeSprite n t s d (t * 4 + 4 * n) = s.sssx ∧
    writeSprite n t s d (t * 4 + 1 + 4 * n) = s.sssy ∧
    writeSprite n t s d (t * 4 + 3 + 4 * n) = s.sssh ∧
    writeSprite n t s d (t * 4 + 8 * n) = s.ssw ∧
    writeSprite n t s d (t * 4 + 1 + 8 * n) = s.ssh ∧
    writeSprite n t s d (t * 4 + 2 + 8 * n) = (if s.rotated then 1 else 0) ∧
    writeSprite n t s d (t * 4 + 3 + 8 * n) = (if s.trimmed then 1 else 0) := by
  intro d
  refine ⟨?_, ?_, ?_, ?_, ?_, ?_, ?_, ?_, ?_, ?_, ?_⟩
  · rw [writeSprite_apply,
      if_neg (show ¬(t * 4 = t * 4 + 3 + 8 * n) by omega),
      if_neg (show ¬(t * 4 = t * 4 + 2 + 8 * n) by omega),
      if_neg (show ¬(t * 4 = t * 4 + 1 + 8 * n) by omega),
      if_neg (show ¬(t * 4 = t * 4 + 8 * n) by omega),
      if_neg (show ¬(t * 4 = t * 4 + 3 + 4 * n) by omega),
      if_neg (show ¬(t * 4 = t * 4 + 1 + 4 * n) by omega),
      if_neg (show ¬(t * 4 = t * 4 + 4 * n) by omega),
      if_neg (show ¬(t * 4 = t * 4 + 3) by omega),
      if_neg (show ¬(t * 4 = t * 4 + 2) by omega),
      if_neg (show ¬(t * 4 = t * 4 + 1) by omega),
      if_pos rfl]
  · rw [writeSprite_apply,
      if_neg (show ¬(t * 4 + 1 = t * 4 + 3 + 8 * n) by omega),
      if_neg (show ¬(t * 4 + 1 = t * 4 + 2 + 8 * n) by omega),
      if_neg (show ¬(t * 4 + 1 = t * 4 + 1 + 8 * n) by omega),
      if_neg (show ¬(t * 4 + 1 = t * 4 + 8 * n) by omega),
      if_neg (show ¬(t * 4 + 1 = t * 4 + 3 + 4 * n) by omega),
      if_neg (show ¬(t * 4 + 1 = t * 4 + 1 + 4 * n) by omega),
      if_neg (show ¬(t * 4 + 1 = t * 4 + 4 * n) by omega),
      if_neg (show ¬(t * 4 + 1 = t * 4 + 3) by omega),
      if_neg (show ¬(t * 4 + 1 = t * 4 + 2) by omega),
      if_pos rfl]
  · rw [writeSprite_apply,
      if_neg (show ¬(t * 4 + 2 = t * 4 + 3 + 8 * n) by omega),
      if_neg (show ¬(t * 4 + 2 = t * 4 + 2 + 8 * n) by omega),
      if_neg (show ¬(t * 4 + 2 = t * 4 + 1 + 8 * n) by omega),
      if_neg (show ¬(t * 4 + 2 = t * 4 + 8 * n) by omega),
      if_neg (show ¬(t * 4 + 2 = t * 4 + 3 + 4 * n) by omega),
      if_neg (show ¬(t * 4 + 2 = t * 4 + 1 + 4 * n) by omega),
      if_neg (show ¬(t * 4 + 2 = t * 4 + 4 * n) by omega),
      if_neg (show ¬(t * 4 + 2 = t * 4 + 3) by omega),
      if_pos rfl]
  · rw [writeSprite_apply,
      if_neg (show ¬(t * 4 + 3 = t * 4 + 3 + 8 * n) by omega),
      if_neg (show ¬(t * 4 + 3 = t * 4 + 2 + 8 * n) by omega),
      if_neg (show ¬(t * 4 + 3 = t * 4 + 1 + 8 * n) by omega),
      if_neg (show ¬(t * 4 + 3 = t * 4 + 8 * n) by omega),
      if_neg (show ¬(t * 4 + 3 = t * 4 + 3 + 4 * n) by omega),
      if_neg (show ¬(t * 4 + 3 = t * 4 + 1 + 4 * n) by omega),
      if_neg (show ¬(t * 4 + 3 = t * 4 + 4 * n) by omega),
      if_pos rfl]
  · rw [writeSprite_apply,
      if_neg (show ¬(t * 4 + 4 * n = t * 4 + 3 + 8 * n) by omega),
      if_neg (show ¬(t * 4 + 4 * n = t * 4 + 2 + 8 * n) by omega),
      if_neg (show ¬(t * 4 + 4 * n = t * 4 + 1 + 8 * n) by omega),
      if_neg (show ¬(t * 4 + 4 * n = t * 4 + 8 * n) by omega),
      if_neg (show ¬(t * 4 + 4 * n = t * 4 + 3 + 4 * n) by omega),
      if_neg (show ¬(t * 4 + 4 * n = t * 4 + 1 + 4 * n) by omega),
      if_pos rfl]
  · rw [writeSprite_apply,
      if_neg (show ¬(t * 4 + 1 + 4 * n = t * 4 + 3 + 8 * n) by omega),
      if_neg (show ¬(t * 4 + 1 + 4 * n = t * 4 + 2 + 8 * n) by omega),
      if_neg (show ¬(t * 4 + 1 + 4 * n = t * 4 + 1 + 8 * n) by omega),
      if_neg (show ¬(t * 4 + 1 + 4 * n = t * 4 + 8 * n) by omega),
      if_neg (show ¬(t * 4 + 1 + 4 * n = t * 4 + 3 + 4 * n) by omega),
      if_pos rfl]
  · rw [writeSprite_apply,
      if_neg (show ¬(t * 4 + 3 + 4 * n = t * 4 + 3 + 8 * n) by omega),
      if_neg (show ¬(t * 4 + 3 + 4 * n = t * 4 + 2 + 8 * n) by omega),
      if_neg (show ¬(t * 4 + 3 + 4 * n = t * 4 + 1 + 8 * n) by omega),
      if_neg (show ¬(t * 4 + 3 + 4 * n = t * 4 + 8 * n) by omega),
      if_pos rfl]
  · rw [writeSprite_apply,
      if_neg (show ¬(t * 4 + 8 * n = t * 4 + 3 + 8 * n) by omega),
      if_neg (show ¬(t * 4 + 8 * n = t * 4 + 2 + 8 * n) by omega),
      if_neg (show ¬(t * 4 + 8 * n = t * 4 + 1 + 8 * n) by omega),
      if_pos rfl]
  · rw [writeSprite_apply,
      if_neg (show ¬(t * 4 + 1 + 8 * n = t * 4 + 3 + 8 * n) by omega),
      if_neg (show ¬(t * 4 + 1 + 8 * n = t * 4 + 2 + 8 * n) by omega),
      if_pos rfl]
  · rw [writeSprite_apply,
      if_neg (show ¬(t * 4 + 2 + 8 * n = t * 4 + 3 + 8 * n) by omega),
      if_pos rfl]
  · rw [writeSprite_apply, if_pos rfl]

/-- C3 amended: for every sprite index t of the atlas, the built frame
table has width spriteCount, 4 rows, row 0 holding the frame rect,
row 1 holding spriteSourceSize.x, spriteSourceSize.y and
spriteSourceSize.h (the trimmed height - not sourceSize.h as the claim
states) in channels 0, 1, 3 with channel 2 left zero, row 2 holding
sourceSize.w, sourceSize.h and the rotated/trimmed flags as 1/0, and
row 3 all zero. -/
theorem spriteMap_frameBuffer_layout (sprites : List SpriteFrame)
    (t : ℕ) (s : SpriteFrame) (hs : sprites.get? t = some s) :
    (buildFrameBufferTex sprites).width = sprites.length ∧
    (buildFrameBufferTex sprites).height = 4 ∧
    (buildFrameBufferTex sprites).data (t * 4) = s.fx ∧
    (buildFrameBufferTex sprites).data (t * 4 + 1) = s.fy ∧
    (buildFrameBufferTex sprites).data (t * 4 + 2) = s.fw ∧
    (buildFrameBufferTex sprites).data (t * 4 + 3) = s.fh ∧
    (buildFrameBufferTex sprites).data (t * 4 + 4 * sprites.length) = s.sssx ∧
    (buildFrameBufferTex sprites).data (t * 4 + 1 + 4 * sprites.length)
      = s.sssy ∧
    (buildFrameBufferTex sprites).data (t * 4 + 2 + 4 * sprites.length) = 0 ∧
    (buildFrameBufferTex sprites).data (t * 4 + 3 + 4 * sprites.length)
      = s.sssh ∧
    (buildFrameBufferTex sprites).data (t * 4 + 8 * sprites.length) = s.ssw ∧
    (buildFrameBufferTex sprites).data (t * 4 + 1 + 8 * sprites.length)
      = s.ssh ∧
    (buildFrameBufferTex sprites).data (t * 4 + 2 + 8 * sprites.length)
      = (if s.rotated then 1 else 0) ∧
    (buildFrameBufferTex sprites).data (t * 4 + 3 + 8 * sprites.length)
      = (if s.trimmed then 1 else 0) ∧
    (∀ c, c < 4 →
      (buildFrameBufferTex sprites).data (t * 4 + c + 12 * sprites.length)
        = 0) := by
  have ht : t < sprites.length := by
    by_contra hge
    rw [List.get?_eq_none.mpr (by omega)] at hs
    exact Option.noConfusion hs
  set n := sprites.length with hn
  have hbase : ∀ k, k ∈ writeSet n t →
      ∃ d2, buildFrameBuffer sprites k = writeSprite n t s d2 k := by
    intro k hk
    exact writeAll_apply_target n sprites 0 (fun _ => 0) t (Nat.zero_le t) ht
      (by omega) k hk s (by simpa using hs)
  have hev := writeSprite_eval n t s ht
  have hzero : ∀ k, (∀ j, j < n → k ∉ writeSet n j) →
      buildFrameBuffer sprites k = 0 := by
    intro k hk
    exact writeAll_not_mem n sprites 0 (fun _ => 0) k
      (fun j hj1 hj2 => hk j (by omega))
  refine ⟨rfl, rfl, ?_, ?_, ?_, ?_, ?_, ?_, ?_, ?_, ?_, ?_, ?_, ?_, ?_⟩
  · obtain ⟨d2, hd⟩ := hbase (t * 4) (by simp [writeSet])
    show buildFrameBuffer sprites (t * 4) = s.fx
    rw [hd]; exact (hev d2).1
  · obtain ⟨d2, hd⟩ := hbase (t * 4 + 1) (by simp [writeSet])
    show buildFrameBuffer sprites (t * 4 + 1) = s.fy
    rw [hd]; exact (hev d2).2.1
  · obtain ⟨d2, hd⟩ := hbase (t * 4 + 2) (by simp [writeSet])
    show buildFrameBuffer sprites (t * 4 + 2) = s.fw
    rw [hd]; exact (hev d2).2.2.1
  · obtain ⟨d2, hd⟩ := hbase (t * 4 + 3) (by simp [writeSet])
    show buildFrameBuffer sprites (t * 4 + 3) = s.fh
    rw [hd]; exact (hev d2).2.2.2.1
  · obtain ⟨d2, hd⟩ := hbase (t * 4 + 4 * n) (by simp [writeSet])
    show buildFrameBuffer sprites (t * 4 + 4 * n) = s.sssx
    rw [hd]; exact (hev d2).2.2.2.2.1
  · obtain ⟨d2, hd⟩ := hbase (t * 4 + 1 + 4 * n) (by simp [writeSet])
    show buildFrameBuffer sprites (t * 4 + 1 + 4 * n) = s.sssy
    rw [hd]; exact (hev d2).2.2.2.2.2.1
  · show buildFrameBuffer sprites (t * 4 + 2 + 4 * n) = 0
    refine hzero _ ?_
    intro j hj
    simp only [writeSet, List.mem_cons, List.not_mem_nil, or_false]
    omega
  · obtain ⟨d2, hd⟩ := hbase (t * 4 + 3 + 4 * n) (by simp [writeSet])
    show buildFrameBuffer sprites (t * 4 + 3 + 4 * n) = s.sssh
    rw [hd]; exact (hev d2).2.2.2.2.2.2.1
  · obtain ⟨d2, hd⟩ := hbase (t * 4 + 8 * n) (by simp [writeSet])
    show buildFrameBuffer sprites (t * 4 + 8 * n) = s.ssw
    rw [hd]; exact (hev d2).2.2.2.2.2.2.2.1
  · obtain ⟨d2, hd⟩ := hbase (t * 4 + 1 + 8 * n) (by simp [writeSet])
    show buildFrameBuffer sprites (t * 4 + 1 + 8 * n) = s.ssh
    rw [hd]; exact (hev d2).2.2.2.2.2.2.2.2.1
  · obtain ⟨d2, hd⟩ := hbase (t * 4 + 2 + 8 * n) (by simp [writeSet])
    show buildFrameBuffer sprites (t * 4 + 2 + 8 * n)
      = (if s.rotated then 1 else 0)
    rw [hd]; exact (hev d2).2.2.2.2.2.2.2.2.2.1
  · obtain ⟨d2, hd⟩ := hbase (t * 4 + 3 + 8 * n) (by simp [writeSet])
    show buildFrameBuffer sprites (t * 4 + 3 + 8 * n)
      = (if s.trimmed then 1 else 0)
    rw [hd]; exact (hev d2).2.2.2.2.2.2.2.2.2.2
  · intro c hc
    show buildFrameBuffer sprites (t * 4 + c + 12 * n) = 0
    refine hzero _ ?_
    intro j hj
    simp only [writeSet, List.mem_cons, List.not_mem_nil, or_false]
    omega

/-- Concrete atlas entry fixture. -/
def demoA : SpriteFrame := ⟨1, 2, 3, 4, 5, 6, 7, 8, 9, 10, true, false⟩

/-- Second concrete atlas entry fixture. -/
def demoB : SpriteFrame := ⟨11, 12, 13, 14, 15, 16, 17, 18, 19, 20, false, true⟩

/-- Witness for C3 on a two-sprite atlas at sprite index 1. -/
theorem spriteMap_frameBuffer_layout_witness :
    (buildFrameBufferTex [demoA, demoB]).width = 2 ∧
    (buildFrameBufferTex [demoA, demoB]).data (1 * 4) = 11 ∧
    (buildFrameBufferTex [demoA, demoB]).data (1 * 4 + 3 + 4 * 2) = 18 ∧
    (buildFrameBufferTex [demoA, demoB]).data (1 * 4 + 2 + 8 * 2) = 0 := by
  have h := spriteMap_frameBuffer_layout [demoA, demoB] 1 demoB (by rfl)
  refine ⟨by simpa using h.1, by simpa [demoB] using h.2.2.1, ?_, ?_⟩
  · have h10 := h.2.2.2.2.2.2.2.2.2.1
    simpa [demoB] using h10
  · have h13 := h.2.2.2.2.2.2.2.2.2.2.2.2.1
    simpa [demoB] using h13

/-- C3 counterexample: for the trimmed sprite demoB of a two-sprite
atlas (spriteSourceSize.h = 18, sourceSize.h = 20), the builder stores
spriteSourceSize.h at row 1 channel 3 of sprite index 1; the value 18
in the buffer differs from sourceSize.h = 20, refuting the claim that
this channel holds sourceSize.h. -/
theorem spriteMap_frameBuffer_row1ch3_trim_height :
    (buildFrameBufferTex [demoA, demoB]).data (1 * 4 + 3 + 4 * 2) = 18 ∧
    demoB.ssh = 20 ∧ (18 : ℚ) ≠ 20 := by
  refine ⟨?_, rfl, by norm_num⟩
  norm_num [buildFrameBufferTex, buildFrameBuffer, writeAll, writeSprite,
    upd, demoA, demoB]

/-- C8 counterexample: with an empty atlas the frame table texture is
created 0 columns wide (width = spriteCount = 0), not 1 wide. -/
theorem spriteMap_empty_atlas_not_one_wide :
    ¬ (buildFrameBufferTex []).width = 1 := by
  simp [buildFrameBufferTex]

/-- C8 amended: spriteCount = 0 yields a zero-wide, height-4 table whose
flat data map is identically zero; there is no special-casing to a
1-wide table. -/
theorem spriteMap_empty_atlas_zero_table :
    (buildFrameBufferTex []).width = 0 ∧
    (buildFrameBufferTex []).height = 4 ∧
    ∀ k, (buildFrameBufferTex []).data k = 0 :=
  ⟨rfl, rfl, fun _ => rfl⟩

/-- One default-fill row of _createTileBuffer: the inner x loop pushes
(bt, 0, 0, 0) once per cell of the row (line 338). -/
def tileBufferRow (bt : ℚ) : ℕ → List ℚ
  | 0 => []
  | x + 1 => bt :: 0 :: 0 :: 0 :: tileBufferRow bt x

/-- The default fill of _createTileBuffer: ty rows of tx cells
(lines 337-341). -/
def tileBufferData (bt : ℚ) (tx : ℕ) : ℕ → List ℚ
  | 0 => []
  | y + 1 => tileBufferRow bt tx ++ tileBufferData bt tx y

/-- A tile grid texture: flat data plus the extents passed to
CreateRGBATexture. -/
structure TileTex where
  data : List ℚ
  width : ℕ
  height : ℕ
deriving DecidableEq

/-- _createTileBuffer (lines 326-359): with no explicit buffer the fill
value is baseTile on layer 0 and 0 on every other layer; an explicit
buffer is passed through unchanged; the extents are the stage size. -/
def createTileBuffer (tx ty : ℕ) (baseTile : ℚ) (buffer : Option (List ℚ))
    (layer : ℕ) : TileTex :=
  match buffer with
  | none =>
    let bt := if layer ≠ 0 then 0 else baseTile
    ⟨tileBufferData bt tx ty, tx, ty⟩
  | some b => ⟨b, tx, ty⟩

lemma tileBufferRow_eq (bt : ℚ) : ∀ tx, tileBufferRow bt tx
    = (List.replicate tx ([bt, 0, 0, 0])).flatten := by
  intro tx
  induction tx with
  | zero => rfl
  | succ x ih => simp [tileBufferRow, List.replicate_succ, ih]

lemma tileBufferData_eq (bt : ℚ) (tx : ℕ) : ∀ ty, tileBufferData bt tx ty
    = (List.replicate (ty * tx) ([bt, 0, 0, 0])).flatten := by
  intro ty
  induction ty with
  | zero => simp [tileBufferData]
  | succ y ih =>
    rw [tileBufferData, ih, tileBufferRow_eq]
    rw [← List.flatten_append, ← List.replicate_add]
    have : tx + y * tx = (y + 1) * tx := by ring
    rw [this]

lemma join_replicate_get (bt : ℚ) :
    ∀ (m c r : ℕ), c < m → r < 4 →
      ((List.replicate m ([bt, 0, 0, 0])).flatten).get? (4 * c + r)
        = [bt, 0, 0, 0].get? r := by
  intro m
  induction m with
  | zero => intro c r hc _; exact absurd hc (Nat.not_lt_zero c)
  | succ m ih =>
    intro c r hc hr
    rw [List.replicate_succ, List.flatten_cons]
    match c with
    | 0 =>
      simp only [Nat.mul_zero, Nat.zero_add]
      exact List.get?_append (by simp; omega)
    | Nat.succ c =>
      rw [List.get?_append_right (by simp; omega)]
      have harith : 4 * (c + 1) + r - [bt, 0, 0, 0].length = 4 * c + r := by
        simp; omega
      rw [harith]
      exact ih c r (by omega) hr

/-- C9: creating a tile grid without an explicit fill buffer allocates
stageWidth * stageHeight cells of 4 channels and fills every cell's
sprite-index channel with baseTile on layer 0 and with 0 on every other
layer. -/
theorem spriteMap_createGrid_fill (tx ty : ℕ) (baseTile : ℚ) (layer : ℕ)
    (cell : ℕ) (hc : cell < tx * ty) :
    (createTileBuffer tx ty baseTile none layer).width = tx ∧
    (createTileBuffer tx ty baseTile none layer).height = ty ∧
    (createTileBuffer tx ty baseTile none layer).data.length
      = 4 * (tx * ty) ∧
    (createTileBuffer tx ty baseTile none layer).data.get? (4 * cell)
      = some (if layer = 0 then baseTile else 0) := by
  refine ⟨rfl, rfl, ?_, ?_⟩
  · show (tileBufferData (if layer ≠ 0 then 0 else baseTile) tx ty).length
      = 4 * (tx * ty)
    rw [tileBufferData_eq]
    simp [List.length_flatten, List.sum_replicate]
    ring
  · show (tileBufferData (if layer ≠ 0 then 0 else baseTile) tx ty).get?
      (4 * cell) = some (if layer = 0 then baseTile else 0)
    rw [tileBufferData_eq]
    have h0 : 4 * cell = 4 * cell + 0 := rfl
    rw [h0, join_replicate_get _ (ty * tx) cell 0
      (Nat.mul_comm tx ty ▸ hc) (by omega)]
    by_cases hl : layer = 0 <;> simp [hl]

/-- Witness for C9 at a 2 x 2 stage, baseTile 7, layer 0, cell 3. -/
theorem spriteMap_createGrid_fill_witness :
    (createTileBuffer 2 2 7 none 0).data.get? (4 * 3) = some 7 := by
  have h := (spriteMap_createGrid_fill 2 2 7 0 3 (by norm_num)).2.2.2
  simpa using h

/-- A write into a JavaScript typed array (Float32Array): an assignment
at an index outside [0, length) is silently ignored. -/
def tarrWrite (b : List ℚ) (id : ℤ) (v : ℚ) : List ℚ :=
  if 0 ≤ id ∧ id < (b.length : ℤ) then b.set id.toNat v else b

/-- The per-position loop of changeTiles (lines 424-430): each position
object is floored in place (the source overwrites the caller's Vector2
x and y), the flat index x * 4 + y * (stageWidth * 4) is computed, and
the tile id is written into the buffer at that index; the loop yields
the final buffer together with the caller-visible mutated positions. -/
def changeTilesLoop (tx : ℕ) (tile : ℚ) :
    List (ℚ × ℚ) → List ℚ → List (ℚ × ℚ) → List ℚ × List (ℚ × ℚ)
  | [], buf, acc => (buf, acc.reverse)
  | q :: rest, buf, acc =>
    let fx : ℤ := Int.floor q.1
    let fy : ℤ := Int.floor q.2
    let id : ℤ := fx * 4 + fy * (tx * 4)
    changeTilesLoop tx tile rest (tarrWrite buf id tile)
      (((fx : ℚ), (fy : ℚ)) :: acc)

/-- changeTiles (lines 408-438) for a given layer's buffer: runs the
mutation loop over the position list; the source contains no bounds
validation and no error reporting (the method returns void), and the
written buffer is re-uploaded as the layer's new tile texture. -/
def changeTiles (tx : ℕ) (buf : List ℚ) (pos : List (ℚ × ℚ)) (tile : ℚ) :
    List ℚ × List (ℚ × ℚ) :=
  changeTilesLoop tx tile pos buf []

/-- C5: changeTiles performs no bounds validation and reports no error:
on a 2 x 2 stage (16-slot buffer) the out-of-bounds position (2, 0)
silently writes the tile into flat index 8, which belongs to cell
(0, 1) - the buffer is corrupted, not left identical - and the position
(0, 5) computes flat index 40, so its write is silently dropped by the
typed array; neither case reports anything. -/
theorem spriteMap_changeTiles_oob_silent :
    ((changeTiles 2 (List.replicate 16 0) [(2, 0)] 7).1).get? 8 = some 7 ∧
    (List.replicate 16 (0 : ℚ)).get? 8 = some 0 ∧
    (changeTiles 2 (List.replicate 16 0) [(0, 5)] 7).1
      = List.replicate 16 0 := by
  have e8 : Int.toNat 8 = 8 := by decide
  have e9 : Int.toNat 9 = 9 := by decide
  have e10 : Int.toNat 10 = 10 := by decide
  refine ⟨?_, by simp, ?_⟩
  · norm_num [changeTiles, changeTilesLoop, tarrWrite, List.getElem_set, e8]
  · norm_num [changeTiles, changeTilesLoop, tarrWrite]

lemma changeTilesLoop_snd (tx : ℕ) (tile : ℚ) :
    ∀ (pos : List (ℚ × ℚ)) (buf : List ℚ) (acc : List (ℚ × ℚ)),
      (changeTilesLoop tx tile pos buf acc).2 = acc.reverse ++
        pos.map (fun q =>
          (((Int.floor q.1 : ℤ) : ℚ), ((Int.floor q.2 : ℤ) : ℚ))) := by
  intro pos
  induction pos with
  | nil => intro buf acc; simp [changeTilesLoop]
  | cons q rest ih =>
    intro buf acc
    rw [changeTilesLoop]
    rw [ih]
    simp [List.reverse_cons, List.append_assoc]

/-- C10: changeTiles floors each supplied position object in place: the
caller-visible position list after the call is exactly the floored image
of the list passed in, so the caller's own coordinate data is changed as
a side effect of the tile update. -/
theorem spriteMap_changeTiles_mutates_positions (tx : ℕ) (buf : List ℚ)
    (pos : List (ℚ × ℚ)) (tile : ℚ) :
    (changeTiles tx buf pos tile).2 = pos.map (fun q =>
      (((Int.floor q.1 : ℤ) : ℚ), ((Int.floor q.2 : ℤ) : ℚ))) := by
  rw [changeTiles, changeTilesLoop_snd]
  simp

/-- addAnimationToTile (lines 391-406): computes the flat index
cellID * 4 + spriteCount * 4 * frame and writes nextCell, time and speed
into three consecutive slots of the animation buffer; the source has no
range validation and no error reporting (void return), and the buffer is
re-uploaded afterwards. -/
def addAnimationToTile (spriteCount : ℕ) (buf : List ℚ)
    (cellID frame : ℤ) (toCell time speed : ℚ) : List ℚ :=
  let id : ℤ := cellID * 4 + (spriteCount : ℤ) * 4 * frame
  tarrWrite (tarrWrite (tarrWrite buf id toCell) (id + 1) time)
    (id + 2) speed

/-- C6: addAnimationToTile has no range check and reports no error: with
spriteCount = 2 and 2 animation frame slots (16-slot buffer), the
out-of-range spriteIndex 2 at frame slot 0 computes flat index 8 and
silently corrupts the cell of sprite 0, frame slot 1, while the
out-of-range frame slot 2 computes flat index 16 so all three writes are
silently dropped; neither case reports anything. -/
theorem spriteMap_addAnimation_oob_silent :
    (addAnimationToTile 2 (List.replicate 16 0) 2 0 5 (1/2) 1).get? 8
      = some 5 ∧
    (addAnimationToTile 2 (List.replicate 16 0) 2 0 5 (1/2) 1).get? 9
      = some (1/2) ∧
    (List.replicate 16 (0 : ℚ)).get? 8 = some 0 ∧
    addAnimationToTile 2 (List.replicate 16 0) 0 2 5 (1/2) 1
      = List.replicate 16 0 := by
  have e8 : Int.toNat 8 = 8 := by decide
  have e9 : Int.toNat 9 = 9 := by decide
  have e10 : Int.toNat 10 = 10 := by decide
  refine ⟨?_, ?_, by simp, ?_⟩
  · norm_num [addAnimationToTile, tarrWrite, List.getElem_set, e8, e9, e10]
  · norm_num [addAnimationToTile, tarrWrite, List.getElem_set, e8, e9, e10]
  · norm_num [addAnimationToTile, tarrWrite]

/-- The inner j loop of _createTileAnimationBuffer (lines 368-370),
pushing 4 zero channels per remaining frame slot. -/
def animFrames : ℕ → List ℚ
  | 0 => []
  | j + 1 => 0 :: 0 :: 0 :: 0 :: animFrames j

/-- The outer i loop of _createTileAnimationBuffer (lines 366-371): per
sprite, one initial zero cell plus maxFrames - 1 further zero cells. -/
def animSprites (maxFrames : ℕ) : ℕ → List ℚ
  | 0 => []
  | i + 1 => (0 :: 0 :: 0 :: 0 :: animFrames (maxFrames - 1))
      ++ animSprites maxFrames i

/-- _createTileAnimationBuffer with no explicit buffer (lines 361-389):
the default zero table uploaded as a spriteCount x maxAnimationFrames
texture. -/
def createTileAnimationBuffer (spriteCount maxFrames : ℕ) : TileTex :=
  ⟨animSprites maxFrames spriteCount, spriteCount, maxFrames⟩

/-- The constructor parameters (ISpriteMapMaterial): the optional fields
are resolved with the ?? defaults of lines 51-56. -/
structure SMConfig where
  stageW : ℕ
  stageH : ℕ
  layerCount : Option ℕ
  maxAnimationFrames : Option ℕ
  baseTile : Option ℚ
  flipU : Option Bool

/-- The buffer state a constructed SpriteMapMaterial holds. -/
structure SMMaterial where
  layerCount : ℕ
  maxAnimationFrames : ℕ
  baseTile : ℚ
  flipU : Bool
  frameBuffer : FrameTableTex
  animationBuffer : TileTex
  tileBuffers : List TileTex

/-- The constructor (lines 49-66): applies the ?? defaults, builds the
frame buffer and the animation buffer, and creates one tile buffer per
layer; the source contains no validation of the stage size, the layer
count or the atlas, and no throw statement - construction always
completes with whatever configuration it is given. -/
def construct (cfg : SMConfig) (sprites : List SpriteFrame) : SMMaterial :=
  let layerCount := cfg.layerCount.getD 1
  let maxF := cfg.maxAnimationFrames.getD 1
  let baseTile := cfg.baseTile.getD 0
  let flipU := cfg.flipU.getD false
  { layerCount := layerCount
    maxAnimationFrames := maxF
    baseTile := baseTile
    flipU := flipU
    frameBuffer := buildFrameBufferTex sprites
    animationBuffer := createTileAnimationBuffer sprites.length maxF
    tileBuffers := (List.range layerCount).map
      (fun i => createTileBuffer cfg.stageW cfg.stageH baseTile none i) }

/-- C7: the constructor performs no configuration validation: with a
zero-sized stage, layerCount = 0 and an empty atlas, construction
completes and returns a degenerate material (zero tile buffers, a
0-wide frame table, an empty animation buffer) instead of failing with
a descriptive error. -/
theorem spriteMap_construct_no_validation :
    (construct ⟨0, 0, some 0, none, none, none⟩ []).layerCount = 0 ∧
    (construct ⟨0, 0, some 0, none, none, none⟩ []).tileBuffers = [] ∧
    (construct ⟨0, 0, some 0, none, none, none⟩ []).frameBuffer.width = 0 ∧
    (construct ⟨0, 0, some 0, none, none, none⟩ []).animationBuffer.data
      = [] := by
  refine ⟨rfl, by simp [construct], rfl, rfl⟩

end SpriteMap
